import Mathlib

/-
  Verification of the credit-flow/valid-ready SystemC simulator
  (sources: src/src/payloads.h, src/src/modules.h, src/src/modules.cpp,
  src/src/main.cpp, src/src/config.h).

  Shallow embedding conventions:
  * sc_uint<w> values are Nat, truncated `% 2^w` exactly where the C++
    type system truncates (assignments into sc_uint fields, sc_uint
    arithmetic).
  * Each SC_THREAD body becomes a per-cycle step function on an explicit
    state record.  Input ports become per-cycle parameters; values the
    thread writes to output signals in a cycle are recorded in `...W`
    fields of the state.  Reading a signal that the same thread wrote
    earlier in the same cycle returns the *previous* cycle's written
    value (sc_signal::read returns the pre-update value); such stale
    reads use the `...W` field of the pre-state.
  * C arrays indexed 0..2 are modeled as functions `Nat -> _` with the
    source's in-range accesses.
  * Where two SC_THREADs of one module run at the same posedge
    (iRC::credit_monitor_thread / iRC::sender_thread), the embedding
    runs them in registration order (monitor first), which is also the
    per-cycle order the specification gives for RC.
-/

/-- Point update of a function modeling in-place array assignment. -/
def upd {α : Type} (f : Nat → α) (k : Nat) (x : α) : Nat → α :=
  fun n => if n = k then x else f n

/-- Value of bit field [hi:lo] of a word, as in sc_uint range reads. -/
def getRange (d hi lo : Nat) : Nat :=
  (d / 2 ^ lo) % 2 ^ (hi - lo + 1)

/-- Replace bit field [hi:lo] of a word by v, as in sc_uint range
assignment (v is truncated to the field width). -/
def setRange (d hi lo v : Nat) : Nat :=
  d % 2 ^ lo + (v % 2 ^ (hi - lo + 1)) * 2 ^ lo + d / 2 ^ (hi + 1) * 2 ^ (hi + 1)

/-- RawTLP from payloads.h: seq_num is sc_uint<32>, thread_id is
sc_uint<2>; a value is well formed when each field is within its width. -/
structure RawTLP where
  seq_num : Nat
  thread_id : Nat
deriving DecidableEq, Repr

/-- AxiWord from payloads.h: data is sc_uint<64>, tlast a bool. -/
structure AxiWord where
  data : Nat
  tlast : Bool
deriving DecidableEq, Repr

/-- payloads.h tlp_to_axi: widen seq_num to 64 bits, then write
thread_id into bits [33:32]. -/
def tlp_to_axi (p : RawTLP) : AxiWord :=
  { data := setRange p.seq_num 33 32 p.thread_id, tlast := true }

/-- payloads.h axi_to_tlp: seq_num from bits [31:0], thread_id from
bits [33:32]. -/
def axi_to_tlp (w : AxiWord) : RawTLP :=
  { seq_num := getRange w.data 31 0, thread_id := getRange w.data 33 32 }

/-- payloads.h credits_to_axi: pack three 16-bit counters into bit
fields [15:0], [31:16], [47:32] of one beat. -/
def credits_to_axi (c0 c1 c2 : Nat) : AxiWord :=
  { data := setRange (setRange (setRange 0 15 0 c0) 31 16 c1) 47 32 c2,
    tlast := true }

/-- payloads.h axi_to_credits: the three 16-bit counter fields of a beat. -/
def axi_to_credits (w : AxiWord) : Nat × Nat × Nat :=
  (getRange w.data 15 0, getRange w.data 31 16, getRange w.data 47 32)

/-- iRC per-instance state (modules.h): packet_seq and the three-entry
credit_counter array.  The round-robin pointer current_thread is a
function-local static of iRC::sender_thread shared by all instances, so
it is NOT part of this record; step functions thread it separately. -/
structure RCState where
  packetSeq : Nat
  creditCounter : Nat → Nat

/-- Credit counters as seen by iRC::sender_thread after
iRC::credit_monitor_thread sampled this cycle's credit bus (the monitor
increments counter i for each asserted bit i). -/
def rcSampled (s : RCState) (creditIn : Nat → Bool) : Nat → Nat :=
  fun i => if i < 3 ∧ creditIn i then s.creditCounter i + 1 else s.creditCounter i

/-- iRC::sender_thread scan: try threads ((current_thread-1+i) % 3)+1
for i = 0,1,2 and return the first with a positive credit counter. -/
def rcScan (ct : Nat) (ctrs : Nat → Nat) : Option Nat :=
  let t0 := (ct - 1 + 0) % 3 + 1
  let t1 := (ct - 1 + 1) % 3 + 1
  let t2 := (ct - 1 + 2) % 3 + 1
  if 0 < ctrs (t0 - 1) then some t0
  else if 0 < ctrs (t1 - 1) then some t1
  else if 0 < ctrs (t2 - 1) then some t2
  else none

/-- One clock cycle of one iRC instance: credit_monitor_thread samples
the credit bus, then sender_thread possibly emits one packet (at most
one per cycle, by the `break`).  Returns the new shared round-robin
pointer, the new instance state, and the emitted packet if any.  While
reset_n = 0 both threads clear their state, but the static round-robin
pointer is not cleared. -/
def rcStep (ct : Nat) (s : RCState) (resetN : Bool) (creditIn : Nat → Bool) :
    Nat × RCState × Option RawTLP :=
  if resetN = false then
    (ct, { packetSeq := 1, creditCounter := fun _ => 0 }, none)
  else
    let ctrs := rcSampled s creditIn
    match rcScan ct ctrs with
    | none => (ct, { packetSeq := s.packetSeq, creditCounter := ctrs }, none)
    | some t =>
      let pkt : RawTLP := { seq_num := s.packetSeq % 2 ^ 32, thread_id := t % 2 ^ 2 }
      let ctrs2 := upd ctrs (t - 1) (ctrs (t - 1) - 1)
      let ct2 := if 3 < t + 1 then 1 else t + 1
      (ct2, { packetSeq := s.packetSeq + 1, creditCounter := ctrs2 }, some pkt)

/-- State of iRC at the start: packet_seq = 1, counters cleared,
round-robin pointer 1. -/
def rcInit : RCState := { packetSeq := 1, creditCounter := fun _ => 0 }

/-- Run of a single iRC instance with reset deasserted, from the
initial state, on a trace of credit-bus samples.  Returns (shared
pointer, state) after t cycles. -/
def rcRun (cr : Nat → Nat → Bool) : Nat → Nat × RCState
  | 0 => (1, rcInit)
  | t + 1 =>
    let p := rcRun cr t
    let r := rcStep p.1 p.2 true (cr t)
    (r.1, r.2.1)

/-- Packets emitted by the instance in cycle t+1 of rcRun (none or one). -/
def rcEmitAt (cr : Nat → Nat → Bool) (t : Nat) : Option RawTLP :=
  (rcStep (rcRun cr t).1 (rcRun cr t).2 true (cr t)).2.2

/-- All packets emitted by the instance during the first t cycles. -/
def rcEmits (cr : Nat → Nat → Bool) : Nat → List RawTLP
  | 0 => []
  | t + 1 => rcEmits cr t ++ (rcEmitAt cr t).toList

/-- Two iRC instances (sc_main builds iRC "iRC" and iRC "iRC_tx"): the
function-local static current_thread of iRC::sender_thread is one
object shared by both sender threads.  Instance a steps before
instance b each cycle (a fixed interleaving of the two SC_THREADs). -/
structure RCPairState where
  ct : Nat
  a : RCState
  b : RCState
  emitA : Option RawTLP
  emitB : Option RawTLP

/-- One cycle of the two-instance system, threading the shared static
round-robin pointer through both sender threads. -/
def rcPairStep (p : RCPairState) (crA crB : Nat → Bool) : RCPairState :=
  let ra := rcStep p.ct p.a true crA
  let rb := rcStep ra.1 p.b true crB
  { ct := rb.1, a := ra.2.1, b := rb.2.1, emitA := ra.2.2, emitB := rb.2.2 }

/-- Run of the two-instance system from the common initial state. -/
def rcPairRun (crA crB : Nat → Nat → Bool) : Nat → RCPairState
  | 0 => { ct := 1, a := rcInit, b := rcInit, emitA := none, emitB := none }
  | t + 1 => rcPairStep (rcPairRun crA crB t) (crA t) (crB t)

/-- Credit trace for the observed instance in the C10 experiment: all
three credit bits pulse at cycle 1, nothing else. -/
def c10crX : Nat → Nat → Bool := fun t _ => decide (t = 1)

/-- Credit trace for the other instance, first run: never any credit. -/
def c10crY1 : Nat → Nat → Bool := fun _ _ => false

/-- Credit trace for the other instance, second run: one credit pulse
for thread 1 at cycle 0. -/
def c10crY2 : Nat → Nat → Bool := fun t i => decide (t = 0) && decide (i = 0)

/-- Credit trace used in the C6 witness: every bit pulses every cycle. -/
def c6crW : Nat → Nat → Bool := fun _ _ => true

/-- Credit trace for the C5 counterexample: every bit of both
instances' credit buses pulses every cycle, so both instances hold
credits on all three threads at every dispatch. -/
def c5crAll : Nat → Nat → Bool := fun _ _ => true

/-- CreditTx (CreditPacker) state, modules.h: three sc_uint<16>
accumulators, the window counter, the sending flag and the latched
pending beat; validW / axiW are the values on the valid_out / axi_out
signals (axi_out keeps its old value in cycles that do not write it).
newBeat records whether this cycle latched a fresh window beat (the
window-expiry branch ran). -/
structure CreditTxState where
  accum : Nat → Nat
  ctr : Nat
  sending : Bool
  pending : AxiWord
  validW : Bool
  axiW : AxiWord
  newBeat : Bool

/-- One clock cycle of CreditTx::main_thread.  sc_uint<16> increments
wrap modulo 2^16.  During the sending cycle the window counter ctr is
not incremented (the `if (!sending)` block is skipped). -/
def creditTxStep (w : Nat) (s : CreditTxState) (resetN : Bool)
    (creditIn : Nat → Bool) (readyIn : Bool) : CreditTxState :=
  if resetN = false then
    { accum := fun _ => 0, ctr := 0, sending := false, pending := s.pending,
      validW := false, axiW := s.axiW, newBeat := false }
  else
    let accum1 := fun i =>
      if i < 3 ∧ creditIn i then (s.accum i + 1) % 2 ^ 16 else s.accum i
    if s.sending = false then
      if s.ctr + 1 = w then
        let pending2 := credits_to_axi (accum1 0) (accum1 1) (accum1 2)
        { accum := fun _ => 0, ctr := 0, sending := true, pending := pending2,
          validW := true, axiW := pending2, newBeat := true }
      else
        { accum := accum1, ctr := s.ctr + 1, sending := false,
          pending := s.pending, validW := false, axiW := s.axiW,
          newBeat := false }
    else
      if readyIn then
        { accum := accum1, ctr := s.ctr, sending := false,
          pending := s.pending, validW := false, axiW := s.axiW,
          newBeat := false }
      else
        { accum := accum1, ctr := s.ctr, sending := true,
          pending := s.pending, validW := true, axiW := s.pending,
          newBeat := false }

/-- CreditTx state after reset (also the state the constructor sets
up): accumulators zero, counter zero, not sending. -/
def creditTxInit : CreditTxState :=
  { accum := fun _ => 0, ctr := 0, sending := false, pending := ⟨0, true⟩,
    validW := false, axiW := ⟨0, true⟩, newBeat := false }

/-- Post-reset run of CreditTx with the downstream always ready
(ready_in reads true every cycle), on an arbitrary credit-pulse trace. -/
def creditTxRun (w : Nat) (cr : Nat → Nat → Bool) : Nat → CreditTxState
  | 0 => creditTxInit
  | t + 1 => creditTxStep w (creditTxRun w cr t) true (cr t) true

/-- The (ctr, sending) control part of CreditTx under reset high and
ready_in high, isolated for the periodicity argument. -/
def ctlStep (w : Nat) (cs : Nat × Bool) : Nat × Bool :=
  if cs.2 then (cs.1, false)
  else if cs.1 + 1 = w then (0, true)
  else (cs.1 + 1, false)

/-- Iterates of ctlStep from the post-reset control state (0, false). -/
def ctlIter (w : Nat) : Nat → Nat × Bool
  | 0 => (0, false)
  | t + 1 => ctlStep w (ctlIter w t)

/-- CreditRx (CreditPulser) state, modules.h: three sc_uint<16> replay
counters.  readyW is the value on the ready_out signal (reading
ready_out inside the thread returns the value written the PREVIOUS
cycle, because sc_signal updates only after the evaluation phase);
creditW is the credit_out bus written this cycle; accepted records
whether this cycle loaded a new beat. -/
structure CreditRxState where
  emitCnt : Nat → Nat
  readyW : Bool
  creditW : Nat
  accepted : Bool

/-- One clock cycle of CreditRx::main_thread.  ready_out is driven
from the emptiness of the counters at the start of the cycle, but the
acceptance test `valid_in.read() && ready_out.read()` sees the STALE
ready_out value written the previous cycle. -/
def creditRxStep (s : CreditRxState) (resetN validIn : Bool)
    (axiIn : AxiWord) : CreditRxState :=
  if resetN = false then
    { emitCnt := fun _ => 0, readyW := true, creditW := 0, accepted := false }
  else
    let empty := (s.emitCnt 0 == 0) && (s.emitCnt 1 == 0) && (s.emitCnt 2 == 0)
    let pulse := (if s.emitCnt 0 == 0 then 0 else 1)
      + (if s.emitCnt 1 == 0 then 0 else 2)
      + (if s.emitCnt 2 == 0 then 0 else 4)
    let cnt1 := fun i =>
      if !empty && decide (i < 3) && !(s.emitCnt i == 0)
      then s.emitCnt i - 1 else s.emitCnt i
    let acc := validIn && s.readyW
    let c := axi_to_credits axiIn
    { emitCnt := fun i =>
        if acc then
          (if i = 0 then c.1 else if i = 1 then c.2.1
           else if i = 2 then c.2.2 else cnt1 i)
        else cnt1 i,
      readyW := empty,
      creditW := if empty then 0 else pulse,
      accepted := acc }

/-- CreditRx state right after a reset cycle. -/
def creditRxReset : CreditRxState :=
  creditRxStep { emitCnt := fun _ => 0, readyW := false, creditW := 0,
                 accepted := false } false false ⟨0, true⟩

/-- First post-reset cycle of the C2 trace: a beat carrying counts
(2,0,0) arrives with valid high. -/
def creditRxS1 : CreditRxState :=
  creditRxStep creditRxReset true true (credits_to_axi 2 0 0)

/-- Second post-reset cycle of the C2 trace: the next beat (7,0,0)
arrives with valid high while the previous beat is still draining. -/
def creditRxS2 : CreditRxState :=
  creditRxStep creditRxS1 true true (credits_to_axi 7 0 0)

/-- SimpleTxFIFO state, modules.h: the bounded sc_fifo, the function
locals holding / held_pkt of main_thread, the max-occupancy statistic,
and the written egress_valid / egress_axi signal values. -/
structure SimpleTxFIFOState where
  fifo : List RawTLP
  holding : Bool
  held : RawTLP
  maxOcc : Nat
  egressValidW : Bool
  egressAxiW : AxiWord

/-- One clock cycle of SimpleTxFIFO::main_thread.  The thread has a
reset_n port but NEVER reads it: the resetN argument is ignored, as in
the source.  An sc_fifo write performed in this evaluation phase only
becomes visible at the next delta, so this cycle's num_available and
nb_read see the pre-cycle contents only; the enqueued packet is
appended to the fifo for the next cycle. -/
def simpleTxFifoStep (depth : Nat) (s : SimpleTxFIFOState) (resetN : Bool)
    (ingressValid : Bool) (ingressTlp : RawTLP) (egressReady : Bool) :
    SimpleTxFIFOState :=
  let enq := ingressValid ∧ s.fifo.length < depth
  let curOcc := s.fifo.length + (if s.holding then 1 else 0)
  let maxOcc1 := max s.maxOcc curOcc
  let fetch := s.holding = false ∧ s.fifo ≠ []
  let holding1 := if fetch then true else s.holding
  let held1 := if fetch then s.fifo.headD s.held else s.held
  let fifoRead := if fetch then s.fifo.tail else s.fifo
  let fifo2 := if enq then fifoRead ++ [ingressTlp] else fifoRead
  if holding1 then
    { fifo := fifo2, holding := if egressReady then false else true,
      held := held1, maxOcc := maxOcc1, egressValidW := true,
      egressAxiW := tlp_to_axi held1 }
  else
    { fifo := fifo2, holding := false, held := held1, maxOcc := maxOcc1,
      egressValidW := false, egressAxiW := s.egressAxiW }

/-- SimpleRxFIFO state, modules.h: the bounded sc_fifo, max-occupancy
statistic, and the written ready_out / valid_out / tlp_out values
(reading ready_out in the enqueue test returns the value written the
previous cycle). -/
structure SimpleRxFIFOState where
  fifo : List RawTLP
  maxOcc : Nat
  readyW : Bool
  validW : Bool
  tlpW : RawTLP

/-- One clock cycle of SimpleRxFIFO::main_thread.  Like SimpleTxFIFO,
the thread has a reset_n port but never reads it.  The enqueue guard
`valid_in.read() && ready_out.read()` uses the stale ready_out value;
sc_fifo::write blocking on a full fifo is modeled by guarding on free
space, and a write performed this cycle only becomes visible at the
next delta, so this cycle's nb_read sees the pre-cycle contents only. -/
def simpleRxFifoStep (depth : Nat) (s : SimpleRxFIFOState) (resetN : Bool)
    (validIn : Bool) (axiIn : AxiWord) : SimpleRxFIFOState :=
  let ready1 := decide (s.fifo.length < depth)
  let maxOcc1 := max s.maxOcc s.fifo.length
  let enq := validIn ∧ s.readyW = true ∧ s.fifo.length < depth
  match s.fifo with
  | [] =>
    { fifo := if enq then [axi_to_tlp axiIn] else [], maxOcc := maxOcc1,
      readyW := ready1, validW := false, tlpW := s.tlpW }
  | pkt :: rest =>
    { fifo := if enq then rest ++ [axi_to_tlp axiIn] else rest,
      maxOcc := maxOcc1, readyW := ready1, validW := true, tlpW := pkt }

/-- Concrete SimpleTxFIFO state with one packet queued, used to show
that reset does not clear the module. -/
def c7TxState : SimpleTxFIFOState :=
  { fifo := [⟨1, 1⟩], holding := false, held := ⟨0, 0⟩, maxOcc := 0,
    egressValidW := false, egressAxiW := ⟨0, true⟩ }

/-- Concrete SimpleRxFIFO state with one packet queued, used to show
that reset does not clear the module. -/
def c7RxState : SimpleRxFIFOState :=
  { fifo := [⟨1, 1⟩], maxOcc := 0, readyW := false, validW := false,
    tlpW := ⟨0, 0⟩ }

/-- AxiNoC state, modules.h (modules.cpp variant with look-ahead
stall): the PIPE_LAT-slot shift register, the stall pattern counter,
and the written ready_out / valid_out / axi_out signal values (axi_out
keeps its old value in cycles that do not write it). -/
structure NoCState where
  pipe : Nat → AxiWord
  pipeValid : Nat → Bool
  patternCtr : Nat
  readyW : Bool
  validW : Bool
  axiReg : AxiWord

/-- Inputs sampled by AxiNoC::main_thread in one cycle. -/
structure NoCIn where
  validIn : Bool
  axiIn : AxiWord
  readyIn : Bool

/-- The ready_out value AxiNoC computes: slot 0 free and the NEXT
pattern position not inside the stall window (look-ahead stall). -/
def nocReadyOk (PLEN SPCT : Nat) (s : NoCState) : Bool :=
  !(s.pipeValid 0) && !(decide ((s.patternCtr + 1) % PLEN < PLEN * SPCT / 100))

/-- Whether the beat offered this cycle is accepted at ingress. -/
def nocAccepts (PLEN SPCT : Nat) (s : NoCState) (inp : NoCIn) : Bool :=
  inp.validIn && nocReadyOk PLEN SPCT s

/-- Body of the pipeline shift loop at index i: if slot i is free and
slot i-1 holds a beat, move it up one slot. -/
def nocShiftBody (p : Nat → AxiWord) (v : Nat → Bool) (i : Nat) :
    (Nat → AxiWord) × (Nat → Bool) :=
  if v i = false ∧ v (i - 1) = true then
    (upd p i (p (i - 1)), upd (upd v i true) (i - 1) false)
  else (p, v)

/-- The shift loop `for (i = PIPE_LAT-1; i > 0; --i)`, processing the
indices m, m-1, ..., 1 in that order on the in-place arrays. -/
def nocShift (p : Nat → AxiWord) (v : Nat → Bool) : Nat → (Nat → AxiWord) × (Nat → Bool)
  | 0 => (p, v)
  | m + 1 =>
    let r := nocShiftBody p v (m + 1)
    nocShift r.1 r.2 m

/-- Pipe contents after the ingress phase: slot 0 is loaded from
axi_in when the offered beat is accepted. -/
def nocIngressP (PLEN SPCT : Nat) (s : NoCState) (inp : NoCIn) : Nat → AxiWord :=
  if nocAccepts PLEN SPCT s inp then upd s.pipe 0 inp.axiIn else s.pipe

/-- Pipe validity after the ingress phase. -/
def nocIngressV (PLEN SPCT : Nat) (s : NoCState) (inp : NoCIn) : Nat → Bool :=
  if nocAccepts PLEN SPCT s inp then upd s.pipeValid 0 true else s.pipeValid

/-- One clock cycle of AxiNoC::main_thread (modules.cpp): compute the
look-ahead ready, maybe load slot 0, advance the pattern counter, drive
the egress from the last slot (clearing it when ready_in is high), then
shift the pipeline.  The thread never reads reset_n. -/
def nocStep (LAT PLEN SPCT : Nat) (s : NoCState) (inp : NoCIn) : NoCState :=
  let p1 := nocIngressP PLEN SPCT s inp
  let v1 := nocIngressV PLEN SPCT s inp
  let egValid := v1 (LAT - 1)
  let axiReg1 := if egValid then p1 (LAT - 1) else s.axiReg
  let v2 := if egValid && inp.readyIn then upd v1 (LAT - 1) false else v1
  let sh := nocShift p1 v2 (LAT - 1)
  { pipe := sh.1, pipeValid := sh.2, patternCtr := (s.patternCtr + 1) % PLEN,
    readyW := nocReadyOk PLEN SPCT s, validW := egValid, axiReg := axiReg1 }

/-- Run of AxiNoC on an input trace from a given state. -/
def nocRun (LAT PLEN SPCT : Nat) (ins : Nat → NoCIn) (s : NoCState) :
    Nat → NoCState
  | 0 => s
  | t + 1 => nocStep LAT PLEN SPCT (nocRun LAT PLEN SPCT ins s t) (ins t)

/-- Empty-pipe AxiNoC state used in the C4 scenarios. -/
def nocInit : NoCState :=
  { pipe := fun _ => ⟨0, true⟩, pipeValid := fun _ => false, patternCtr := 0,
    readyW := false, validW := false, axiReg := ⟨0, true⟩ }

/-- Input trace for the C4 counterexample: a fresh beat offered every
cycle (data 100+t), egress never ready. -/
def c4insCE : Nat → NoCIn := fun t => ⟨true, ⟨100 + t, true⟩, false⟩

/-- Input trace for the C4 witness: one beat (data 7) offered from
cycle 0 on, egress never ready. -/
def c4insW : Nat → NoCIn := fun _ => ⟨true, ⟨7, true⟩, false⟩

/-- Credit trace with no pulses, used in the C3 scenarios. -/
def c3crW : Nat → Nat → Bool := fun _ _ => false

/-- Concrete CreditTx state with accumulator 0 at its 16-bit maximum
and the module in the sending state (so the window-expiry branch does
not zero the accumulators this cycle). -/
def c8St : CreditTxState :=
  { accum := fun _ => 2 ^ 16 - 1, ctr := 0, sending := true,
    pending := ⟨0, true⟩, validW := true, axiW := ⟨0, true⟩,
    newBeat := false }

/-- C9: tlp -> axi -> tlp is the identity on well-formed packets
(seq_num < 2^32, thread_id < 4). -/
theorem axi_tlp_roundtrip (p : RawTLP) (h1 : p.seq_num < 2 ^ 32)
    (h2 : p.thread_id < 4) : axi_to_tlp (tlp_to_axi p) = p := by
  obtain ⟨s, t⟩ := p
  simp only [tlp_to_axi, axi_to_tlp, getRange, setRange, RawTLP.mk.injEq]
  norm_num
  simp only [RawTLP.seq_num] at h1
  simp only [RawTLP.thread_id] at h2
  omega

/-- Witness for C9 at a concrete packet. -/
theorem axi_tlp_roundtrip_witness :
    (⟨77, 2⟩ : RawTLP).seq_num < 2 ^ 32 ∧ (⟨77, 2⟩ : RawTLP).thread_id < 4 ∧
    axi_to_tlp (tlp_to_axi ⟨77, 2⟩) = ⟨77, 2⟩ :=
  ⟨by norm_num, by norm_num, axi_tlp_roundtrip ⟨77, 2⟩ (by norm_num) (by norm_num)⟩

/-- Helper: a successful round-robin scan returns a thread in {1,2,3}
whose (sampled) credit counter is positive. -/
theorem rcScan_some (ct : Nat) (ctrs : Nat → Nat) (t : Nat)
    (h : rcScan ct ctrs = some t) :
    1 ≤ t ∧ t ≤ 3 ∧ 0 < ctrs (t - 1) := by
  simp only [rcScan] at h
  split at h
  · rename_i hc
    obtain rfl : (ct - 1 + 0) % 3 + 1 = t := by injection h
    refine ⟨by omega, by omega, hc⟩
  · split at h
    · rename_i hc
      obtain rfl : (ct - 1 + 1) % 3 + 1 = t := by injection h
      refine ⟨by omega, by omega, hc⟩
    · split at h
      · rename_i hc
        obtain rfl : (ct - 1 + 2) % 3 + 1 = t := by injection h
        refine ⟨by omega, by omega, hc⟩
      · exact absurd h (by simp)

/-- C1 (amended): every packet emitted by an rcStep cycle has thread_id
in {1,2,3}; the credit counter of that thread as sampled THIS cycle
(prior value plus any pulse arriving this cycle) is strictly positive;
the emission decrements exactly that sampled counter by one and leaves
the other threads' counters at their sampled values.  At most one
packet per cycle is structural (the step returns an Option). -/
theorem rc_emit_spends_sampled_credit (ct : Nat) (s : RCState)
    (cr : Nat → Bool) (pkt : RawTLP)
    (h : (rcStep ct s true cr).2.2 = some pkt) :
    1 ≤ pkt.thread_id ∧ pkt.thread_id ≤ 3 ∧
    0 < rcSampled s cr (pkt.thread_id - 1) ∧
    (rcStep ct s true cr).2.1.creditCounter (pkt.thread_id - 1)
      = rcSampled s cr (pkt.thread_id - 1) - 1 ∧
    (∀ j, j ≠ pkt.thread_id - 1 →
      (rcStep ct s true cr).2.1.creditCounter j = rcSampled s cr j) := by
  unfold rcStep at h ⊢
  rw [if_neg (by simp)] at h ⊢
  cases hscan : rcScan ct (rcSampled s cr) with
  | none => simp only [hscan] at h; exact Option.noConfusion h
  | some t =>
    simp only [hscan, Option.some.injEq] at h ⊢
    obtain ⟨h1, h2, h3⟩ := rcScan_some ct (rcSampled s cr) t hscan
    have htid : pkt.thread_id = t := by
      rw [← h]
      show t % 2 ^ 2 = t
      omega
    refine ⟨by omega, by omega, ?_, ?_, ?_⟩
    · rw [htid]; exact h3
    · rw [htid]; simp [upd]
    · intro j hj
      rw [htid] at hj
      simp [upd, hj]

/-- Witness for C1's amended theorem at a concrete cycle: counters
[1,0,0], no pulses, pointer 1: the step emits thread 1. -/
theorem rc_emit_spends_sampled_credit_witness :
    1 ≤ (⟨4, 1⟩ : RawTLP).thread_id ∧ (⟨4, 1⟩ : RawTLP).thread_id ≤ 3 ∧
    0 < rcSampled ⟨4, fun i => if i = 0 then 1 else 0⟩ (fun _ => false)
      ((⟨4, 1⟩ : RawTLP).thread_id - 1) ∧
    (rcStep 1 ⟨4, fun i => if i = 0 then 1 else 0⟩ true
      (fun _ => false)).2.1.creditCounter ((⟨4, 1⟩ : RawTLP).thread_id - 1)
      = rcSampled ⟨4, fun i => if i = 0 then 1 else 0⟩ (fun _ => false)
          ((⟨4, 1⟩ : RawTLP).thread_id - 1) - 1 ∧
    (∀ j, j ≠ (⟨4, 1⟩ : RawTLP).thread_id - 1 →
      (rcStep 1 ⟨4, fun i => if i = 0 then 1 else 0⟩ true
        (fun _ => false)).2.1.creditCounter j
        = rcSampled ⟨4, fun i => if i = 0 then 1 else 0⟩ (fun _ => false) j) :=
  rc_emit_spends_sampled_credit 1 ⟨4, fun i => if i = 0 then 1 else 0⟩
    (fun _ => false) ⟨4, 1⟩ (by decide)

/-- C1 counterexample to the claim as stated: from the initial state
(all credit counters zero at the prior cycle) a credit pulse for
thread 1 arriving in the current cycle is spent in that same cycle, so
a packet with thread_id 1 is emitted although credit_counter[0] was 0
at the prior cycle. -/
theorem rc_prior_cycle_credit_cex :
    rcInit.creditCounter 0 = 0 ∧
    (rcStep 1 rcInit true (fun i => decide (i = 0))).2.2 = some ⟨1, 1⟩ := by
  constructor
  · rfl
  · decide

/-- Helper for C5: one dispatch cycle with all three sampled credit
counters positive and the shared pointer ct in {1,2,3} emits a packet
for exactly the pointed-to thread, advances the pointer cyclically to
ct % 3 + 1 and increments packet_seq. -/
theorem rcStep_all_credits (ct : Nat) (s : RCState) (cr : Nat → Bool)
    (hct1 : 1 ≤ ct) (hct3 : ct ≤ 3)
    (hall : ∀ i, i < 3 → 0 < rcSampled s cr i) :
    (rcStep ct s true cr).2.2 = some ⟨s.packetSeq % 2 ^ 32, ct⟩ ∧
    (rcStep ct s true cr).1 = ct % 3 + 1 ∧
    (rcStep ct s true cr).2.1.packetSeq = s.packetSeq + 1 := by
  have h0 := hall 0 (by omega)
  have h1 := hall 1 (by omega)
  have h2 := hall 2 (by omega)
  interval_cases ct
  · refine ⟨?_, ?_, ?_⟩ <;> (simp only [rcStep, rcScan]; norm_num [h0])
  · refine ⟨?_, ?_, ?_⟩ <;> (simp only [rcStep, rcScan]; norm_num [h1])
  · refine ⟨?_, ?_, ?_⟩ <;> (simp only [rcStep, rcScan]; norm_num [h2])

/-- C5 (amended): each dispatch made while all three threads hold
sampled credits takes the thread the shared round-robin pointer points
to and advances the pointer cyclically; hence two CONSECUTIVE dispatch
cycles of one instance with no intervening dispatch by the other
instance (both with all sampled counters positive) emit cyclically
successive thread ids ct then ct % 3 + 1, i.e. 1→2→3→1.  (When the
other iRC instance dispatches in between, the shared static pointer
advances again and the per-instance sequence skips; see the
counterexample.) -/
theorem rc_round_robin_consecutive (ct : Nat) (s : RCState)
    (cr1 cr2 : Nat → Bool) (hct1 : 1 ≤ ct) (hct3 : ct ≤ 3)
    (hall1 : ∀ i, i < 3 → 0 < rcSampled s cr1 i)
    (hall2 : ∀ i, i < 3 → 0 < rcSampled (rcStep ct s true cr1).2.1 cr2 i) :
    (rcStep ct s true cr1).2.2 = some ⟨s.packetSeq % 2 ^ 32, ct⟩ ∧
    (rcStep ((rcStep ct s true cr1).1) ((rcStep ct s true cr1).2.1)
        true cr2).2.2
      = some ⟨(s.packetSeq + 1) % 2 ^ 32, ct % 3 + 1⟩ := by
  obtain ⟨he1, hct2, hseq2⟩ := rcStep_all_credits ct s cr1 hct1 hct3 hall1
  obtain ⟨he2, -, -⟩ := rcStep_all_credits (ct % 3 + 1)
    (rcStep ct s true cr1).2.1 cr2 (by omega) (by omega) hall2
  refine ⟨he1, ?_⟩
  rw [hct2, he2, hseq2]

/-- Witness for C5's amended theorem: pointer 1, all counters 2, no
pulses: the two consecutive dispatches emit thread 1 then thread 2. -/
theorem rc_round_robin_consecutive_witness :
    1 ≤ 1 ∧ (1 : Nat) ≤ 3 ∧
    (∀ i, i < 3 → 0 < rcSampled ⟨7, fun _ => 2⟩ (fun _ => false) i) ∧
    (∀ i, i < 3 →
      0 < rcSampled (rcStep 1 ⟨7, fun _ => 2⟩ true (fun _ => false)).2.1
        (fun _ => false) i) ∧
    ((rcStep 1 ⟨7, fun _ => 2⟩ true (fun _ => false)).2.2
        = some ⟨7 % 2 ^ 32, 1⟩ ∧
     (rcStep ((rcStep 1 ⟨7, fun _ => 2⟩ true (fun _ => false)).1)
        ((rcStep 1 ⟨7, fun _ => 2⟩ true (fun _ => false)).2.1) true
        (fun _ => false)).2.2
       = some ⟨(7 + 1) % 2 ^ 32, 1 % 3 + 1⟩) :=
  ⟨le_rfl, by norm_num, by decide, by decide,
   rc_round_robin_consecutive 1 ⟨7, fun _ => 2⟩ (fun _ => false)
     (fun _ => false) le_rfl (by norm_num) (by decide) (by decide)⟩

/-- C5 counterexample to the claim as stated: in the two-instance
system (the topology sc_main builds), with every credit bit of BOTH
instances pulsing every cycle, instance a holds sampled credits on all
three threads at both of its first two dispatches, yet its consecutive
packets carry thread_id 1 then thread_id 3 — not 1 then 2 — because
instance b's intervening dispatch advances the shared static
round-robin pointer. -/
theorem rc_pair_round_robin_cex :
    (∀ i, i < 3 →
      0 < rcSampled (rcPairRun c5crAll c5crAll 0).a (c5crAll 0) i) ∧
    (∀ i, i < 3 →
      0 < rcSampled (rcPairRun c5crAll c5crAll 1).a (c5crAll 1) i) ∧
    (rcPairRun c5crAll c5crAll 1).emitA = some ⟨1, 1⟩ ∧
    (rcPairRun c5crAll c5crAll 2).emitA = some ⟨2, 3⟩ :=
  ⟨by decide, by decide, by decide, by decide⟩

/-- C10: the static round-robin pointer is shared between the two iRC
instances and survives reset.  With identical credit input to instance
a (trace c10crX) in both runs, changing only instance b's credit input
(c10crY1 vs c10crY2) changes the thread id of the packet instance a
emits at cycle 2 (thread 1 vs thread 2).  Furthermore a reset cycle
leaves the static pointer untouched while clearing packet_seq. -/
theorem rc_static_shared_across_instances :
    (rcPairRun c10crX c10crY1 2).emitA = some ⟨1, 1⟩ ∧
    (rcPairRun c10crX c10crY2 2).emitA = some ⟨1, 2⟩ ∧
    (rcStep 2 ⟨5, fun _ => 1⟩ false (fun _ => false)).1 = 2 ∧
    (rcStep 2 ⟨5, fun _ => 1⟩ false (fun _ => false)).2.1.packetSeq = 1 := by
  refine ⟨by decide, by decide, rfl, rfl⟩

/-- Helper for C6: along any post-reset run, packet_seq is one more
than the number of packets emitted so far, and the emitted seq_nums are
(1 % 2^32), (2 % 2^32), ... in order. -/
theorem rcRun_seq_invariant (cr : Nat → Nat → Bool) (t : Nat) :
    (rcRun cr t).2.packetSeq = (rcEmits cr t).length + 1 ∧
    (rcEmits cr t).map RawTLP.seq_num
      = (List.range (rcEmits cr t).length).map (fun i => (i + 1) % 2 ^ 32) := by
  induction t with
  | zero => simp [rcRun, rcEmits, rcInit]
  | succ t ih =>
    obtain ⟨ihseq, ihmap⟩ := ih
    have hrun : rcRun cr (t + 1)
        = ((rcStep (rcRun cr t).1 (rcRun cr t).2 true (cr t)).1,
           (rcStep (rcRun cr t).1 (rcRun cr t).2 true (cr t)).2.1) := rfl
    have hem : rcEmits cr (t + 1) = rcEmits cr t ++ (rcEmitAt cr t).toList := rfl
    rw [hrun, hem]
    unfold rcEmitAt
    unfold rcStep
    rw [if_neg (by simp)]
    cases hscan : rcScan (rcRun cr t).1 (rcSampled (rcRun cr t).2 (cr t)) with
    | none =>
      simp only [hscan, Option.toList_none, List.append_nil]
      exact ⟨ihseq, ihmap⟩
    | some u =>
      simp only [hscan, Option.toList_some]
      constructor
      · simp [ihseq]
      · rw [List.length_append, List.length_singleton, List.map_append,
          List.range_succ, List.map_append, ihmap]
        simp [ihseq]

/-- C6: after reset, as long as fewer than 2^32 packets have been
emitted, the seq_nums emitted by one RC instance are exactly the
strictly increasing sequence 1, 2, 3, ... in emission order. -/
theorem rc_seq_nums_increasing (cr : Nat → Nat → Bool) (t : Nat)
    (h : (rcEmits cr t).length < 2 ^ 32) :
    (rcEmits cr t).map RawTLP.seq_num
      = (List.range (rcEmits cr t).length).map (fun i => i + 1) := by
  rw [(rcRun_seq_invariant cr t).2]
  apply List.map_congr_left
  intro i hi
  have : i < (rcEmits cr t).length := List.mem_range.mp hi
  omega

/-- Witness for C6: a concrete 5-cycle run with all credit bits pulsing
every cycle emits seq_nums 1,2,3,4,5. -/
theorem rc_seq_nums_increasing_witness :
    (rcEmits c6crW 5).length < 2 ^ 32 ∧
    (rcEmits c6crW 5).map RawTLP.seq_num
      = (List.range (rcEmits c6crW 5).length).map (fun i => i + 1) :=
  ⟨by decide, rc_seq_nums_increasing c6crW 5 (by decide)⟩

/-- C2 (amended): each non-reset cycle CreditRx drives ready_out equal
to "all three emit_cnt counters were zero at the start of the cycle",
but it ACCEPTS a beat exactly when valid_in is high together with the
ready_out value driven on the PREVIOUS cycle (the stale signal value);
acceptance therefore need not coincide with the counters being drained
and overwrites whatever the counters hold. -/
theorem creditRx_ready_and_stale_accept (s : CreditRxState) (v : Bool)
    (a : AxiWord) :
    (creditRxStep s true v a).readyW
      = ((s.emitCnt 0 == 0) && (s.emitCnt 1 == 0) && (s.emitCnt 2 == 0)) ∧
    (creditRxStep s true v a).accepted = (v && s.readyW) :=
  ⟨rfl, rfl⟩

/-- C2 counterexample to the claim as stated: two back-to-back beats
(2,0,0) then (7,0,0) after reset.  The second beat is accepted (thanks
to the stale ready_out written while the counters were still empty)
although emit_cnt[0] = 2 at the start of that cycle, and the load
overwrites the non-zero counter with 7. -/
theorem creditRx_overwrite_cex :
    creditRxS1.emitCnt 0 = 2 ∧
    creditRxS2.accepted = true ∧
    creditRxS2.emitCnt 0 = 7 :=
  ⟨by decide, by decide, by decide⟩

/-- C8 (amended): the sc_uint<16> accumulators of CreditTx wrap modulo
2^16: a credit pulse for thread 0 arriving when accum[0] = 2^16 - 1
leaves accum[0] = 0 (shown with the module in the sending state so the
window-expiry branch does not interfere). -/
theorem creditTx_accum_wraps (w : Nat) (s : CreditTxState)
    (cr : Nat → Bool) (rdy : Bool) (hacc : s.accum 0 = 2 ^ 16 - 1)
    (hcr : cr 0 = true) (hsend : s.sending = true) :
    (creditTxStep w s true cr rdy).accum 0 = 0 := by
  unfold creditTxStep
  rw [if_neg (by simp)]
  rw [hsend]
  cases rdy <;> simp [hcr, hacc]

/-- Witness for C8's amended theorem at the concrete state c8St. -/
theorem creditTx_accum_wraps_witness :
    c8St.accum 0 = 2 ^ 16 - 1 ∧ (fun _ : Nat => true) 0 = true ∧
    c8St.sending = true ∧
    (creditTxStep 8 c8St true (fun _ => true) true).accum 0 = 0 :=
  ⟨by decide, rfl, rfl,
   creditTx_accum_wraps 8 c8St (fun _ => true) true (by decide) rfl rfl⟩

/-- C8 counterexample to the claim as stated: at accum[0] = 2^16 - 1 a
further pulse yields 0, not the claimed saturation value 2^16 - 1. -/
theorem creditTx_saturation_cex :
    (creditTxStep 8 c8St true (fun _ => true) true).accum 0 = 0 ∧
    (0 : Nat) ≠ 2 ^ 16 - 1 :=
  ⟨by decide, by decide⟩

/-- C7: SimpleTxFIFO and SimpleRxFIFO never read reset_n.  One cycle
with reset_n = 0 (and no new input) from a state holding one packet
leaves the packet in the module and drives egress_valid / valid_out
high, contradicting "one cycle after reset assertion all FIFOs are
empty and all valid outputs are low". -/
theorem fifo_reset_ignored :
    (simpleTxFifoStep 16 c7TxState false false ⟨0, 0⟩ false).egressValidW
      = true ∧
    (simpleTxFifoStep 16 c7TxState false false ⟨0, 0⟩ false).holding = true ∧
    (simpleTxFifoStep 16 c7TxState false false ⟨0, 0⟩ false).held = ⟨1, 1⟩ ∧
    (simpleRxFifoStep 2 c7RxState false false ⟨0, true⟩).validW = true ∧
    (simpleRxFifoStep 2 c7RxState false false ⟨0, true⟩).tlpW = ⟨1, 1⟩ :=
  ⟨by decide, by decide, by decide, by decide, by decide⟩

/-- Helper for C3: with reset high and ready_in high, one CreditTx
cycle acts on (ctr, sending) exactly as ctlStep, independently of the
credit input. -/
theorem creditTxStep_ctl (w : Nat) (s : CreditTxState) (cr : Nat → Bool) :
    ((creditTxStep w s true cr true).ctr,
     (creditTxStep w s true cr true).sending)
      = ctlStep w (s.ctr, s.sending) := by
  unfold creditTxStep ctlStep
  rw [if_neg (by simp)]
  cases hs : s.sending
  · simp only [hs]
    by_cases h : s.ctr + 1 = w <;> simp [h]
  · simp [hs]

/-- Helper for C3: the newBeat flag of a cycle equals "was not sending
and the window counter reached window_size this cycle". -/
theorem creditTxStep_newBeat (w : Nat) (s : CreditTxState)
    (cr : Nat → Bool) (rdy : Bool) :
    (creditTxStep w s true cr rdy).newBeat
      = (!s.sending && decide (s.ctr + 1 = w)) := by
  unfold creditTxStep
  rw [if_neg (by simp)]
  cases hs : s.sending
  · simp only [hs]
    by_cases h : s.ctr + 1 = w <;> simp [h]
  · cases rdy <;> simp [hs]

/-- Helper for C3: along the always-ready run the control state is the
ctlStep iterate. -/
theorem creditTxRun_ctl (w : Nat) (cr : Nat → Nat → Bool) (t : Nat) :
    ((creditTxRun w cr t).ctr, (creditTxRun w cr t).sending)
      = ctlIter w t := by
  induction t with
  | zero => rfl
  | succ t ih =>
    have h1 : creditTxRun w cr (t + 1)
        = creditTxStep w (creditTxRun w cr t) true (cr t) true := rfl
    have h2 : ctlIter w (t + 1) = ctlStep w (ctlIter w t) := rfl
    rw [h1, h2, creditTxStep_ctl, ih]

/-- Helper for C3: closed form of the control iterate over one period:
counting 0..w-1, then one sending cycle. -/
theorem ctlIter_closed (w : Nat) (hw : 0 < w) (j : Nat) (hj : j ≤ w) :
    ctlIter w j = if j < w then (j, false) else (0, true) := by
  induction j with
  | zero => simp [ctlIter, hw]
  | succ j ih =>
    have hlt : j < w := by omega
    have h1 : ctlIter w (j + 1) = ctlStep w (ctlIter w j) := rfl
    rw [h1, ih (by omega), if_pos hlt]
    unfold ctlStep
    by_cases hjw : j + 1 = w
    · simp [hjw]
    · have h2 : j + 1 < w := by omega
      simp [hjw, h2]

/-- Helper for C3: the control iterate has period w + 1. -/
theorem ctlIter_period (w : Nat) (hw : 0 < w) (t : Nat) :
    ctlIter w (t + (w + 1)) = ctlIter w t := by
  induction t with
  | zero =>
    have h1 : ctlIter w w = (0, true) := by
      rw [ctlIter_closed w hw w le_rfl]; simp
    have h2 : ctlIter w (w + 1) = ctlStep w (ctlIter w w) := rfl
    have h3 : (0 : Nat) + (w + 1) = w + 1 := by omega
    rw [h3, h2, h1]
    simp [ctlStep, ctlIter]
  | succ t ih =>
    have h1 : t + 1 + (w + 1) = (t + (w + 1)) + 1 := by omega
    have h2 : ctlIter w ((t + (w + 1)) + 1) = ctlStep w (ctlIter w (t + (w + 1))) := rfl
    have h3 : ctlIter w (t + 1) = ctlStep w (ctlIter w t) := rfl
    rw [h1, h2, ih, h3]

/-- Helper for C3: the control iterate only depends on the cycle index
modulo w + 1. -/
theorem ctlIter_mod (w : Nat) (hw : 0 < w) (t : Nat) :
    ctlIter w t = ctlIter w (t % (w + 1)) := by
  conv_lhs => rw [← Nat.div_add_mod t (w + 1)]
  generalize t / (w + 1) = q
  induction q with
  | zero => simp
  | succ q ih =>
    have h1 : (w + 1) * (q + 1) + t % (w + 1)
        = ((w + 1) * q + t % (w + 1)) + (w + 1) := by ring
    rw [h1, ctlIter_period w hw, ih]

/-- C3 (amended): with the downstream always ready, CreditTx latches a
new beat exactly at cycles t+1 with t mod (window_size+1) = window_size-1,
i.e. one beat every window_size + 1 cycles (the handshake-clearing
cycle does not advance the window counter), for every window_size > 0
and any credit-pulse trace. -/
theorem creditTx_beat_period (w : Nat) (hw : 0 < w)
    (cr : Nat → Nat → Bool) (t : Nat) :
    (creditTxRun w cr (t + 1)).newBeat = decide (t % (w + 1) = w - 1) := by
  have hr : t % (w + 1) < w + 1 := Nat.mod_lt _ (by omega)
  have h1 : creditTxRun w cr (t + 1)
      = creditTxStep w (creditTxRun w cr t) true (cr t) true := rfl
  rw [h1, creditTxStep_newBeat]
  have hctl := creditTxRun_ctl w cr t
  rw [ctlIter_mod w hw t, ctlIter_closed w hw _ (by omega)] at hctl
  have hctr := congrArg Prod.fst hctl
  have hsend := congrArg Prod.snd hctl
  simp only [] at hctr hsend
  by_cases hcase : t % (w + 1) < w
  · rw [if_pos hcase] at hctr hsend
    rw [hctr, hsend]
    simp only [Bool.not_false, Bool.true_and]
    rw [decide_eq_decide]
    omega
  · rw [if_neg hcase] at hctr hsend
    rw [hctr, hsend]
    have hne : ¬ (t % (w + 1) = w - 1) := by omega
    simp [hne]

/-- Witness for C3's amended theorem: window_size 8, first new beat at
cycle 8 (7 mod 9 = 7 = 8 - 1). -/
theorem creditTx_beat_period_witness :
    0 < 8 ∧
    (creditTxRun 8 c3crW (7 + 1)).newBeat = decide (7 % (8 + 1) = 8 - 1) :=
  ⟨by norm_num, creditTx_beat_period 8 (by norm_num) c3crW 7⟩

/-- C3 counterexample to the claim as stated: with window_size = 8 and
a permanently ready downstream, new beats are latched at cycles 8 and
17, i.e. 9 cycles apart, not 8 (no new beat at cycle 16). -/
theorem creditTx_window_cex :
    (creditTxRun 8 c3crW 8).newBeat = true ∧
    (creditTxRun 8 c3crW 16).newBeat = false ∧
    (creditTxRun 8 c3crW 17).newBeat = true :=
  ⟨by decide, by decide, by decide⟩

/-- Helper for C4: the fields of one AxiNoC cycle, unfolded. -/
theorem nocStep_pipe (LAT PLEN SPCT : Nat) (s : NoCState) (inp : NoCIn) :
    (nocStep LAT PLEN SPCT s inp).pipe
      = (nocShift (nocIngressP PLEN SPCT s inp)
          (if nocIngressV PLEN SPCT s inp (LAT - 1) && inp.readyIn
           then upd (nocIngressV PLEN SPCT s inp) (LAT - 1) false
           else nocIngressV PLEN SPCT s inp) (LAT - 1)).1 := rfl

/-- Helper for C4: the validity array after one AxiNoC cycle. -/
theorem nocStep_pipeValid (LAT PLEN SPCT : Nat) (s : NoCState) (inp : NoCIn) :
    (nocStep LAT PLEN SPCT s inp).pipeValid
      = (nocShift (nocIngressP PLEN SPCT s inp)
          (if nocIngressV PLEN SPCT s inp (LAT - 1) && inp.readyIn
           then upd (nocIngressV PLEN SPCT s inp) (LAT - 1) false
           else nocIngressV PLEN SPCT s inp) (LAT - 1)).2 := rfl

/-- Helper for C4: valid_out written by one AxiNoC cycle is the
post-ingress validity of the last slot. -/
theorem nocStep_validW (LAT PLEN SPCT : Nat) (s : NoCState) (inp : NoCIn) :
    (nocStep LAT PLEN SPCT s inp).validW
      = nocIngressV PLEN SPCT s inp (LAT - 1) := rfl

/-- Helper for C4: axi_out after one AxiNoC cycle. -/
theorem nocStep_axiReg (LAT PLEN SPCT : Nat) (s : NoCState) (inp : NoCIn) :
    (nocStep LAT PLEN SPCT s inp).axiReg
      = if nocIngressV PLEN SPCT s inp (LAT - 1)
        then nocIngressP PLEN SPCT s inp (LAT - 1) else s.axiReg := rfl

/-- Helper for C4: the ingress phase only writes slot 0. -/
theorem nocIngress_ne_zero (PLEN SPCT : Nat) (s : NoCState) (inp : NoCIn)
    (j : Nat) (hj : j ≠ 0) :
    nocIngressP PLEN SPCT s inp j = s.pipe j ∧
    nocIngressV PLEN SPCT s inp j = s.pipeValid j := by
  unfold nocIngressP nocIngressV
  constructor <;> split <;> simp [upd, hj]

/-- Helper for C4: an accepted beat lands in slot 0. -/
theorem nocIngress_accept (PLEN SPCT : Nat) (s : NoCState) (inp : NoCIn)
    (h : nocAccepts PLEN SPCT s inp = true) :
    nocIngressP PLEN SPCT s inp 0 = inp.axiIn ∧
    nocIngressV PLEN SPCT s inp 0 = true := by
  unfold nocIngressP nocIngressV
  rw [if_pos h, if_pos h]
  simp [upd]

/-- Helper for C4: nocShiftBody leaves slots other than i and i-1
untouched. -/
theorem nocShiftBody_untouched (p : Nat → AxiWord) (v : Nat → Bool)
    (i j : Nat) (hj1 : j ≠ i) (hj2 : j ≠ i - 1) :
    (nocShiftBody p v i).1 j = p j ∧ (nocShiftBody p v i).2 j = v j := by
  unfold nocShiftBody
  split
  · simp [upd, hj1, hj2]
  · exact ⟨rfl, rfl⟩

/-- Helper for C4: shifting indices m..1 leaves slots above m untouched. -/
theorem nocShift_untouched (m : Nat) :
    ∀ (p : Nat → AxiWord) (v : Nat → Bool) (j : Nat), m < j →
      (nocShift p v m).1 j = p j ∧ (nocShift p v m).2 j = v j := by
  induction m with
  | zero => intro p v j _; exact ⟨rfl, rfl⟩
  | succ m ih =>
    intro p v j hj
    have h1 : nocShift p v (m + 1)
        = nocShift (nocShiftBody p v (m + 1)).1 (nocShiftBody p v (m + 1)).2 m := rfl
    rw [h1]
    obtain ⟨hb1, hb2⟩ := nocShiftBody_untouched p v (m + 1) j (by omega) (by omega)
    obtain ⟨hi1, hi2⟩ := ih (nocShiftBody p v (m + 1)).1
      (nocShiftBody p v (m + 1)).2 j (by omega)
    exact ⟨hi1.trans hb1, hi2.trans hb2⟩

/-- Helper for C4: if slot t holds a beat and every slot above t is
free, the shift loop over indices m..1 (with m at least t+1) moves the
beat from slot t to slot t+1 and keeps every slot above t+1 free. -/
theorem nocShift_move (t m : Nat) (hm : t + 1 ≤ m) :
    ∀ (p : Nat → AxiWord) (v : Nat → Bool), v t = true →
      (∀ j, t < j → v j = false) →
      (nocShift p v m).1 (t + 1) = p t ∧
      (nocShift p v m).2 (t + 1) = true ∧
      (∀ j, t + 1 < j → (nocShift p v m).2 j = false) := by
  induction m, hm using Nat.le_induction with
  | base =>
    intro p v hvt hab
    have h1 : nocShift p v (t + 1)
        = nocShift (nocShiftBody p v (t + 1)).1 (nocShiftBody p v (t + 1)).2 t := rfl
    have hb : nocShiftBody p v (t + 1)
        = (upd p (t + 1) (p t), upd (upd v (t + 1) true) t false) := by
      unfold nocShiftBody
      rw [if_pos ⟨hab (t + 1) (by omega), hvt⟩]
      simp only [Nat.add_sub_cancel]
    rw [h1, hb]
    refine ⟨?_, ?_, ?_⟩
    · rw [(nocShift_untouched t _ _ (t + 1) (by omega)).1]
      simp [upd]
    · rw [(nocShift_untouched t _ _ (t + 1) (by omega)).2]
      simp [upd]
    · intro j hj
      rw [(nocShift_untouched t _ _ j (by omega)).2]
      simp only [upd]
      rw [if_neg (by omega), if_neg (by omega)]
      exact hab j (by omega)
  | succ m hm ih =>
    intro p v hvt hab
    have hvm : v m = false := hab m (by omega)
    have hb : nocShiftBody p v (m + 1) = (p, v) := by
      unfold nocShiftBody
      rw [if_neg]
      intro hcon
      have hcon2 : v m = true := hcon.2
      rw [hvm] at hcon2
      exact Bool.noConfusion hcon2
    have h1 : nocShift p v (m + 1)
        = nocShift (nocShiftBody p v (m + 1)).1 (nocShiftBody p v (m + 1)).2 m := rfl
    rw [h1, hb]
    exact ih p v hvt hab

/-- Helper for C4: a beat accepted into an empty pipe at cycle 0 sits
in slot t after t cycles (1 <= t <= PIPE_LAT-1), the slots above it are
free, and valid_out written during those cycles is low. -/
theorem axiNoC_inv (LAT PLEN SPCT : Nat) (ins : Nat → NoCIn) (s : NoCState)
    (hEmpty : ∀ j, s.pipeValid j = false)
    (hAcc : nocAccepts PLEN SPCT s (ins 0) = true) :
    ∀ t, 1 ≤ t → t ≤ LAT - 1 →
      (nocRun LAT PLEN SPCT ins s t).pipe t = (ins 0).axiIn ∧
      (nocRun LAT PLEN SPCT ins s t).pipeValid t = true ∧
      (∀ j, t < j → (nocRun LAT PLEN SPCT ins s t).pipeValid j = false) ∧
      (nocRun LAT PLEN SPCT ins s t).validW = false := by
  intro t
  induction t with
  | zero => intro h _; exact absurd h (by omega)
  | succ t ih =>
    intro h1 h2
    have hstep : nocRun LAT PLEN SPCT ins s (t + 1)
        = nocStep LAT PLEN SPCT (nocRun LAT PLEN SPCT ins s t) (ins t) := rfl
    have key : nocIngressP PLEN SPCT (nocRun LAT PLEN SPCT ins s t) (ins t) t
          = (ins 0).axiIn ∧
        nocIngressV PLEN SPCT (nocRun LAT PLEN SPCT ins s t) (ins t) t = true ∧
        (∀ j, t < j →
          nocIngressV PLEN SPCT (nocRun LAT PLEN SPCT ins s t) (ins t) j = false) := by
      rcases Nat.eq_zero_or_pos t with ht0 | htpos
      · subst ht0
        obtain ⟨hp0, hv0⟩ := nocIngress_accept PLEN SPCT s (ins 0) hAcc
        exact ⟨hp0, hv0, fun j hj =>
          ((nocIngress_ne_zero PLEN SPCT s (ins 0) j (by omega)).2).trans
            (hEmpty j)⟩
      · obtain ⟨hb, hv, hab, -⟩ := ih (by omega) (by omega)
        refine ⟨?_, ?_, ?_⟩
        · rw [(nocIngress_ne_zero PLEN SPCT _ (ins t) t (by omega)).1]
          exact hb
        · rw [(nocIngress_ne_zero PLEN SPCT _ (ins t) t (by omega)).2]
          exact hv
        · intro j hj
          rw [(nocIngress_ne_zero PLEN SPCT _ (ins t) j (by omega)).2]
          exact hab j hj
    obtain ⟨hkp, hkv, hka⟩ := key
    have hegs : nocIngressV PLEN SPCT (nocRun LAT PLEN SPCT ins s t) (ins t)
        (LAT - 1) = false := hka (LAT - 1) (by omega)
    obtain ⟨hm1, hm2, hm3⟩ := nocShift_move t (LAT - 1) (by omega)
      (nocIngressP PLEN SPCT (nocRun LAT PLEN SPCT ins s t) (ins t))
      (nocIngressV PLEN SPCT (nocRun LAT PLEN SPCT ins s t) (ins t)) hkv hka
    refine ⟨?_, ?_, ?_, ?_⟩
    · rw [hstep, nocStep_pipe, hegs]
      simp only [Bool.false_and, Bool.false_eq_true, if_false]
      rw [hm1, hkp]
    · rw [hstep, nocStep_pipeValid, hegs]
      simp only [Bool.false_and, Bool.false_eq_true, if_false]
      exact hm2
    · intro j hj
      rw [hstep, nocStep_pipeValid, hegs]
      simp only [Bool.false_and, Bool.false_eq_true, if_false]
      exact hm3 j hj
    · rw [hstep, nocStep_validW]
      exact hegs

/-- C4 (amended): a beat accepted at ingress while the whole pipeline
is empty has its valid_out written low for the first PIPE_LAT-1 cycles
and written high, with axi_out carrying exactly that beat, at cycle
PIPE_LAT-1 after acceptance, for every PIPE_LAT >= 1, independently of
later inputs and of egress back-pressure.  Since a value written to an
sc_signal is sampled by the consumer one cycle later, the downstream
first samples valid_out high exactly PIPE_LAT cycles after acceptance.
(With beats already in the pipe, back-pressure can delay a beat beyond
PIPE_LAT; see the counterexample.) -/
theorem axiNoC_pipe_latency (LAT PLEN SPCT : Nat) (ins : Nat → NoCIn)
    (s : NoCState) (hL : 1 ≤ LAT) (hEmpty : ∀ j, s.pipeValid j = false)
    (hAcc : nocAccepts PLEN SPCT s (ins 0) = true) :
    (∀ k, k + 1 ≤ LAT - 1 →
      (nocRun LAT PLEN SPCT ins s (k + 1)).validW = false) ∧
    (nocRun LAT PLEN SPCT ins s LAT).validW = true ∧
    (nocRun LAT PLEN SPCT ins s LAT).axiReg = (ins 0).axiIn := by
  by_cases hL1 : LAT = 1
  · subst hL1
    obtain ⟨hp0, hv0⟩ := nocIngress_accept PLEN SPCT s (ins 0) hAcc
    refine ⟨fun k hk => absurd hk (by omega), ?_, ?_⟩
    · rw [show nocRun 1 PLEN SPCT ins s 1
          = nocStep 1 PLEN SPCT s (ins 0) from rfl, nocStep_validW]
      exact hv0
    · rw [show nocRun 1 PLEN SPCT ins s 1
          = nocStep 1 PLEN SPCT s (ins 0) from rfl, nocStep_axiReg, hv0]
      simp [hp0]
  · obtain ⟨n, rfl⟩ : ∃ n, LAT = n + 1 := ⟨LAT - 1, by omega⟩
    have hn : 1 ≤ n := by omega
    refine ⟨?_, ?_, ?_⟩
    · intro k hk
      exact (axiNoC_inv (n + 1) PLEN SPCT ins s hEmpty hAcc (k + 1)
        (by omega) hk).2.2.2
    · obtain ⟨hb, hv, -, -⟩ := axiNoC_inv (n + 1) PLEN SPCT ins s hEmpty hAcc
        n hn (by omega)
      have hstep : nocRun (n + 1) PLEN SPCT ins s (n + 1)
          = nocStep (n + 1) PLEN SPCT (nocRun (n + 1) PLEN SPCT ins s n)
              (ins n) := rfl
      rw [hstep, nocStep_validW,
        (nocIngress_ne_zero PLEN SPCT _ (ins n) (n + 1 - 1) (by omega)).2]
      exact hv
    · obtain ⟨hb, hv, -, -⟩ := axiNoC_inv (n + 1) PLEN SPCT ins s hEmpty hAcc
        n hn (by omega)
      have hstep : nocRun (n + 1) PLEN SPCT ins s (n + 1)
          = nocStep (n + 1) PLEN SPCT (nocRun (n + 1) PLEN SPCT ins s n)
              (ins n) := rfl
      have hv2 : nocIngressV PLEN SPCT (nocRun (n + 1) PLEN SPCT ins s n)
          (ins n) (n + 1 - 1) = true :=
        ((nocIngress_ne_zero PLEN SPCT _ (ins n) (n + 1 - 1) (by omega)).2).trans hv
      rw [hstep, nocStep_axiReg, hv2,
        (nocIngress_ne_zero PLEN SPCT _ (ins n) (n + 1 - 1) (by omega)).1]
      simp only [if_true]
      exact hb

/-- Witness for C4's amended theorem: PIPE_LAT = 1, no stalls, a beat
accepted at cycle 0 into the empty pipe; valid_out is written high with
that beat at cycle 0 (sampled at cycle 1 = PIPE_LAT). -/
theorem axiNoC_pipe_latency_witness :
    1 ≤ 1 ∧
    ((∀ k, k + 1 ≤ 1 - 1 →
        (nocRun 1 100 0 c4insW nocInit (k + 1)).validW = false) ∧
      (nocRun 1 100 0 c4insW nocInit 1).validW = true ∧
      (nocRun 1 100 0 c4insW nocInit 1).axiReg = (c4insW 0).axiIn) :=
  ⟨le_rfl, axiNoC_pipe_latency 1 100 0 c4insW nocInit le_rfl
    (fun _ => rfl) (by decide)⟩

/-- C4 counterexample to the claim as stated: PIPE_LAT = 2, no stall
pattern, egress never ready.  The beat with data 101 is accepted at
cycle 1 while the beat with data 100 still occupies the pipe; at cycle
1 + PIPE_LAT = 3 the egress signals carry the OLD beat (data 100), not
the accepted one, so the accepted beat is not first asserted exactly
PIPE_LAT cycles after acceptance under back-pressure. -/
theorem axiNoC_backpressure_cex :
    nocAccepts 100 0 (nocRun 2 100 0 c4insCE nocInit 1) (c4insCE 1) = true ∧
    (nocRun 2 100 0 c4insCE nocInit 3).validW = true ∧
    (nocRun 2 100 0 c4insCE nocInit 3).axiReg = ⟨100, true⟩ ∧
    (nocRun 2 100 0 c4insCE nocInit 3).axiReg ≠ ⟨101, true⟩ :=
  ⟨by decide, by decide, by decide, by decide⟩
